import Mathlib

/-!
Shallow embedding of `src/rpa_banco.py`, a one-shot table-sync script between
two PostgreSQL databases (DB2 = source, DB1 = destination).

Modelling conventions:
* A cell value is `Option Int` (`none` models SQL NULL); a row is a list of
  cells positionally matching the table's column list.
* A database is an association list from table name to `Table` (columns in
  catalog order, the first primary-key column as reported by
  `information_schema`, and the rows in physical storage order).
* Python exceptions that a function catches are modelled by that function's
  error result (`_get_data` returns `([], [])`, `_insert_data` rolls back and
  returns failure, `_get_table_hash` returns `none`), exactly as the `except`
  blocks in the source do.
* `md5` is modelled as an injective digest: every property stated here
  depends only on equality of digests, and under the collision resistance the
  design assumes, digest equality coincides with equality of the hashed text,
  so the digest is represented by the canonical text itself.
* `SELECT * FROM t ORDER BY 1` is modelled by a stable sort of the stored row
  list on the first column, ascending with NULLs last (PostgreSQL default);
  rows tied on the first column keep their physical order, reflecting that
  PostgreSQL leaves their relative order unspecified.
-/

abbrev Cell := Option Int

abbrev Row := List Cell

/-- A table as the model database stores it: column names in catalog order,
the first primary-key column reported by `information_schema` (if any), and
the rows in physical storage order. -/
structure Table where
  cols : List String
  pk : Option String
  rows : List Row
deriving DecidableEq

/-- A database: an association list from table name to table. -/
abbrev DB := List (String × Table)

def findTable (db : DB) (name : String) : Option Table :=
  match db.find? (fun p => p.1 == name) with
  | some p => some p.2
  | none => none

def dbSet (db : DB) (name : String) (t : Table) : DB :=
  match db with
  | [] => []
  | p :: rest => if p.1 == name then (p.1, t) :: rest else p :: dbSet rest name t

/-- Text of one cell inside a PostgreSQL record literal: NULL prints as the
empty string, an integer prints in decimal. -/
def cellText : Cell → String
  | none => ""
  | some n => toString n

/-- Text of `t::text` for a row of integer cells: `(v1,v2,...)`. -/
def rowText (r : Row) : String :=
  "(" ++ String.intercalate "," (r.map cellText) ++ ")"

/-- Comparison used by `ORDER BY 1` on the first cell of each row, ascending with
NULLs last (PostgreSQL default for ascending order). -/
def cellLeB : Cell → Cell → Bool
  | _, none => true
  | none, some _ => false
  | some a, some b => decide (a ≤ b)

def rowKey (r : Row) : Cell := r.headD none

def rowLeP (a b : Row) : Prop := cellLeB (rowKey a) (rowKey b) = true

instance : DecidableRel rowLeP := fun _ _ => instDecidableEqBool _ _

instance : IsTotal Row rowLeP := by
  constructor
  intro a b
  unfold rowLeP
  cases rowKey a with
  | none =>
    cases rowKey b with
    | none => exact Or.inl rfl
    | some m => exact Or.inr rfl
  | some n =>
    cases rowKey b with
    | none => exact Or.inl rfl
    | some m =>
      rcases Int.le_total n m with h | h
      · exact Or.inl (by simpa [cellLeB] using h)
      · exact Or.inr (by simpa [cellLeB] using h)

instance : IsTrans Row rowLeP := by
  constructor
  intro a b c hab hbc
  unfold rowLeP at *
  cases ka : rowKey a <;> cases kb : rowKey b <;> cases kc : rowKey c <;>
    simp_all [cellLeB] <;> omega

/-- The order `ORDER BY 1` sorts by, restricted to rows with distinct first
cells: strictly below on the first cell. Used to state that the sort output
is uniquely determined when no two rows tie on the first column. -/
def rowLeNe (a b : Row) : Prop := rowLeP a b ∧ rowKey a ≠ rowKey b

instance : IsAntisymm Row rowLeNe := by
  constructor
  rintro a b ⟨hab, hne⟩ ⟨hba, _⟩
  exfalso
  apply hne
  unfold rowLeP at hab hba
  cases ka : rowKey a <;> cases kb : rowKey b <;> simp_all [cellLeB] <;> omega

/-- The rows as `SELECT * FROM t ORDER BY 1` returns them: stable sort on the
first column. -/
def sortRows (rows : List Row) : List Row :=
  List.insertionSort rowLeP rows

/-- The digest of the canonical text, modelled injectively (see header). -/
def md5 (s : String) : String := s

/-- Digest `md5(string_agg(t::text, ''))` over the ordered rows. -/
def hashRows (rows : List Row) : String :=
  md5 (String.join ((sortRows rows).map rowText))

/-- Model of `_get_table_hash(conn, table)`: `none` when the query fails (missing
table, modelled by absence from the database) and `none` when the table has
zero rows (`string_agg` over an empty set is NULL); otherwise the digest of
the concatenated ordered row texts. The `except` block in the source makes
the function total: it never propagates an exception. -/
def getTableHash (db : DB) (table : String) : Option String :=
  match findTable db table with
  | none => none
  | some t => if t.rows.isEmpty then none else some (hashRows t.rows)

/-- Python-dict key order, with the keys already emitted in `seen`: keep the
first occurrence of each key, drop later duplicates. -/
def dedupKeysAux (seen : List String) : List String → List String
  | [] => []
  | t :: rest =>
    if t ∈ seen then dedupKeysAux seen rest
    else t :: dedupKeysAux (t :: seen) rest

/-- Python-dict key order: first occurrence of each key, duplicates dropped. -/
def dedupKeys (l : List String) : List String := dedupKeysAux [] l

/-- Model of `_get_db_hashes(conn, sync_tables)`: dict comprehension keyed by table
name (empty names filtered by `if table`), each value `_get_table_hash`. -/
def getDbHashes (db : DB) (tables : List String) : List (String × Option String) :=
  (dedupKeys (tables.filter (fun t => t ≠ ""))).map (fun t => (t, getTableHash db t))

/-- Model of `dict.get(table)`: the stored value for the first matching key, `none`
when the key is absent (which the caller cannot tell apart from a stored
`None` hash). -/
def lookupHash : List (String × Option String) → String → Option String
  | [], _ => none
  | p :: rest, table => if p.1 == table then p.2 else lookupHash rest table

/-- Model of `_get_data(conn, "SELECT * FROM table", table)`: all rows and all column
names of the source table; on query failure (missing table) the `except`
block returns `([], [])`. -/
def getData (db : DB) (table : String) : List Row × List String :=
  match findTable db table with
  | none => ([], [])
  | some t => (t.rows, t.cols)

/-- The value bound to column `c` by the row/column-list pairing of one
`INSERT` statement (`none` when `c` is not among the inserted columns). -/
def colValue (cols : List String) (row : Row) (c : String) : Cell :=
  match cols.findIdx? (fun x => x == c) with
  | some i => row.getD i none
  | none => none

/-- One `cursor.execute` of the generated
`INSERT ... ON CONFLICT (pk) DO UPDATE SET ...` statement against the current
table state; `none` models the statement raising. The statement raises when:
the row length does not match the placeholder count; a column is listed twice
in the target list; a named column does not exist in the destination table;
the `DO UPDATE SET` list is empty (every inserted column is the primary key),
which is a syntax error; or the primary-key value being inserted is NULL
(primary-key columns are NOT NULL). On conflict the existing row keeps its
primary key and its columns outside `cols`, and takes `EXCLUDED` values for
the non-key inserted columns; otherwise a fresh row is appended with NULL in
the destination columns not inserted. -/
def applyRow (t : Table) (cols : List String) (pk : String) (pkIdx : Nat) (row : Row) :
    Option Table :=
  if row.length = cols.length ∧ cols.Nodup ∧ (∀ c ∈ cols, c ∈ t.cols) ∧
      cols.any (fun c => c ≠ pk) = true then
    let k := colValue cols row pk
    if k.isSome then
      match t.rows.findIdx? (fun r => r.getD pkIdx none == k) with
      | some i =>
          let old := t.rows.getD i []
          let upd := (t.cols.zip old).map
            (fun p => if p.1 ≠ pk ∧ p.1 ∈ cols then colValue cols row p.1 else p.2)
          some { t with rows := t.rows.set i upd }
      | none =>
          let fresh := t.cols.map (fun c => if c ∈ cols then colValue cols row c else none)
          some { t with rows := t.rows ++ [fresh] }
    else none
  else none

/-- Model of `_insert_data(conn, data, table_name, columns)`: look up the first
primary-key column of the destination table in the catalog (no row → the
`ValueError` path), then execute one upsert per data row inside the one open
transaction; any raise is caught, the transaction rolled back and failure
returned (`false`), otherwise the transaction commits (`true`). -/
def insertData (db : DB) (data : List Row) (table : String) (cols : List String) :
    DB × Bool :=
  match findTable db table with
  | none => (db, false)
  | some t =>
    match t.pk with
    | none => (db, false)
    | some pk =>
      match t.cols.findIdx? (fun c => c == pk) with
      | none => (db, false)
      | some pkIdx =>
        match data.foldlM (fun acc row => applyRow acc cols pk pkIdx row) t with
        | none => (db, false)
        | some t2 => (dbSet db table t2, true)

/-- What the main loop prints for one table: `já está atualizada` (hashes
equal), `VAZIA ... Nenhuma sincronização feita` (empty read), or
`SUCESSO ... sincronizada com N linhas` — printed unconditionally after
`_insert_data` returns, whatever happened inside it. -/
inductive Report where
  | upToDate : Report
  | emptySource : Report
  | successMsg : Nat → Report
deriving DecidableEq

/-- Everything observable about one iteration of the main loop. `writer` is
`none` when `_insert_data` was not called, otherwise `some` of its outcome. -/
structure Step where
  table : String
  srcHash : Option String
  destHash : Option String
  readCols : List String
  dataLen : Nat
  writer : Option Bool
  report : Report
deriving DecidableEq

/-- One iteration of the main loop for table `table` with the precomputed
hashes `h2` (source, DB2) and `h1` (destination, DB1): on hash mismatch read
`SELECT *` from the source, and if any rows came back hand them all to
`_insert_data` and print the success line regardless of its outcome. -/
def syncStep (src : DB) (dest : DB) (table : String) (h2 h1 : Option String) :
    DB × Step :=
  if h2 ≠ h1 then
    let rd := getData src table
    if rd.1.isEmpty then
      (dest, ⟨table, h2, h1, rd.2, 0, none, Report.emptySource⟩)
    else
      let ins := insertData dest rd.1 table rd.2
      (ins.1, ⟨table, h2, h1, rd.2, rd.1.length, some ins.2, Report.successMsg rd.1.length⟩)
  else
    (dest, ⟨table, h2, h1, [], 0, none, Report.upToDate⟩)

/-- The `for table, hash2_origem in hashes_db2_origem.items()` loop, with the
destination hash dict `hs1` computed once before the loop. -/
def runSyncFrom (src : DB) (hs1 : List (String × Option String)) (dest : DB) :
    List (String × Option String) → DB × List Step
  | [] => (dest, [])
  | p :: rest =>
    let s := syncStep src dest p.1 p.2 (lookupHash hs1 p.1)
    let r := runSyncFrom src hs1 s.1 rest
    (r.1, s.2 :: r.2)

/-- The whole main sync block (lines 125–151): hash every configured table on
both sides up front, then iterate the source hash dict. Returns the final
destination database and the per-table observations. -/
def runSync (src dest : DB) (tables : List String) : DB × List Step :=
  runSyncFrom src (getDbHashes dest tables) dest (getDbHashes src tables)

/-- Python truthiness of `os.getenv("SYNC_TABLES")`: `None` and `""` are
falsy, any other string truthy. -/
def truthy : Option String → Bool
  | none => false
  | some s => s != ""

/-- Model of `[t.strip() for t in sync_tables_raw.split(",") if t.strip()]`. -/
def parseTables (raw : String) : List String :=
  ((raw.splitOn ",").map String.trim).filter (fun s => s ≠ "")

/-- Coarse process events for the module-level control flow. -/
inductive Ev where
  | connectAttempt : Nat → Ev
  | closeConn : Nat → Ev
  | exited : Nat → Ev
deriving DecidableEq

/-- The module-level script: connect DB1, connect DB2 (lines 98, 111), then
check `SYNC_TABLES` (line 117) — if falsy, `exit(1)` right there, before the
`try`/`finally` that closes the connections; otherwise run the sync (whose
per-table errors are all caught inside the helpers, so control always reaches
the `finally`), close both connections and exit 0. Returns the event trace
and the final destination database. -/
def script (raw : Option String) (src dest : DB) : List Ev × DB :=
  if truthy raw then
    ([Ev.connectAttempt 1, Ev.connectAttempt 2,
      Ev.closeConn 1, Ev.closeConn 2, Ev.exited 0],
     (runSync src dest (parseTables (raw.getD ""))).1)
  else
    ([Ev.connectAttempt 1, Ev.connectAttempt 2, Ev.exited 1], dest)

/-! Concrete database fixtures used by the counterexamples and witnesses. -/

/-- Source with columns a, b, c (column c does not exist at the destination). -/
def exSrcABC : DB := [("t", ⟨["a", "b", "c"], some "a", [[some 1, some 2, some 3]]⟩)]

/-- Destination with columns a, b, d (column d does not exist at the source). -/
def exDestABD : DB := [("t", ⟨["a", "b", "d"], some "a", [[some 1, some 5, some 7]]⟩)]

/-- Source table with one row. -/
def exSrcIdV : DB := [("t", ⟨["id", "v"], some "id", [[some 1, some 10]]⟩)]

/-- Destination with the source's row plus one extra row the source lacks. -/
def exDestExtra : DB :=
  [("t", ⟨["id", "v"], some "id", [[some 1, some 10], [some 2, some 20]]⟩)]

/-- Destination with the same schema as `exSrcIdV` and zero rows. -/
def exDestEmpty : DB := [("t", ⟨["id", "v"], some "id", []⟩)]

/-- Destination table without any primary key. -/
def exDestNoPk : DB := [("t", ⟨["id", "v"], none, []⟩)]

/-- Source for the no-primary-key scenario. -/
def exSrcIdV2 : DB := [("t", ⟨["id", "v"], some "id", [[some 1, some 2]]⟩)]

/-- A table whose rows tie on the first column, in two physical orders. -/
def exRowsTie1 : List Row := [[some 1, some 10], [some 1, some 20]]

/-- The same multiset of rows as `exRowsTie1`, stored in the other order. -/
def exRowsTie2 : List Row := [[some 1, some 20], [some 1, some 10]]

/-! Helper lemmas shared by several claim proofs. -/

/-- Every failure branch of `_insert_data` ends in `conn.rollback()`:
a failing call returns the destination database unchanged. -/
theorem insertData_fail_eq (db : DB) (data : List Row) (table : String)
    (cols : List String) (h : (insertData db data table cols).2 = false) :
    (insertData db data table cols).1 = db := by
  cases hf : findTable db table with
  | none => simp [insertData, hf]
  | some t =>
    cases hp : t.pk with
    | none => simp [insertData, hf, hp]
    | some pk =>
      cases hi : t.cols.findIdx? (fun c => c == pk) with
      | none => simp [insertData, hf, hp, hi]
      | some pkIdx =>
        cases hm : data.foldlM (fun acc row => applyRow acc cols pk pkIdx row) t with
        | none => simp [insertData, hf, hp, hi, hm]
        | some t2 =>
          exfalso
          simp [insertData, hf, hp, hi, hm] at h

/-- A single upsert statement raises when it names a column the destination
table does not have. -/
theorem applyRow_col_missing (t : Table) (cols : List String) (pk : String)
    (pkIdx : Nat) (row : Row) (c : String) (hc : c ∈ cols) (hcn : c ∉ t.cols) :
    applyRow t cols pk pkIdx row = none := by
  rw [applyRow, if_neg]
  rintro ⟨-, -, h3, -⟩
  exact hcn (h3 c hc)

/-- Writer `_insert_data` fails and rolls back whenever the (nonempty) batch names a
column the destination table lacks: the first `INSERT` raises. -/
theorem insertData_col_missing (db : DB) (data : List Row) (table : String)
    (cols : List String) (t : Table) (c : String)
    (hf : findTable db table = some t) (hc : c ∈ cols) (hcn : c ∉ t.cols)
    (hd : data ≠ []) :
    insertData db data table cols = (db, false) := by
  cases hp : t.pk with
  | none => simp [insertData, hf, hp]
  | some pk =>
    cases hi : t.cols.findIdx? (fun x => x == pk) with
    | none => simp [insertData, hf, hp, hi]
    | some pkIdx =>
      cases data with
      | nil => exact absurd rfl hd
      | cons d rest =>
        have happ : applyRow t cols pk pkIdx d = none :=
          applyRow_col_missing t cols pk pkIdx d c hc hcn
        simp [insertData, hf, hp, hi, happ]

/-- With `cols = [pk]` the generated `DO UPDATE SET` list is empty, which is
a SQL syntax error: every execution of the statement raises. -/
theorem applyRow_pk_only (t : Table) (pk : String) (pkIdx : Nat) (row : Row) :
    applyRow t [pk] pk pkIdx row = none := by
  rw [applyRow, if_neg]
  rintro ⟨-, -, -, h4⟩
  simp at h4

/-- Hash `getTableHash` of a missing or empty table is `none`. -/
theorem getTableHash_none (db : DB) (table : String)
    (h : findTable db table = none ∨ ∃ t, findTable db table = some t ∧ t.rows = []) :
    getTableHash db table = none := by
  rcases h with h | ⟨t, hf, hr⟩
  · simp [getTableHash, h]
  · simp [getTableHash, hf, hr]

/-! Claim theorems. -/

/-- C3: upsert is atomic per table — all rows of one batch run inside the one
open transaction with a single `commit` at the end, and on any failure
(primary-key lookup or any row's statement) the `except` branch issues
`rollback`, so the destination database is exactly what it was before the
call: no row of the batch is visible. -/
theorem upsert_batch_atomic (db : DB) (data : List Row) (table : String)
    (cols : List String) (h : (insertData db data table cols).2 = false) :
    (insertData db data table cols).1 = db :=
  insertData_fail_eq db data table cols h

/-- Witness for C3: a two-row batch whose second row is malformed fails, and
the destination (including the first, individually valid row) is unchanged. -/
theorem upsert_batch_atomic_witness :
    (insertData exDestEmpty [[some 1, some 2], [some 3]] "t" ["id", "v"]).2 = false ∧
    (insertData exDestEmpty [[some 1, some 2], [some 3]] "t" ["id", "v"]).1 = exDestEmpty :=
  ⟨by decide, upsert_batch_atomic exDestEmpty [[some 1, some 2], [some 3]] "t" ["id", "v"]
    (by decide)⟩

/-- C4: a destination table with no primary key is never written: the
catalog lookup returns no row, `_insert_data` raises the `ValueError`
(schema error), rolls back and leaves the database unchanged — and therefore
a sync step for that table leaves the destination unchanged whatever the
hashes were. -/
theorem upsert_refused_without_pk (db : DB) (data : List Row) (table : String)
    (cols : List String) (t : Table)
    (hf : findTable db table = some t) (hpk : t.pk = none) :
    insertData db data table cols = (db, false) ∧
    ∀ src h2 h1, (syncStep src db table h2 h1).1 = db := by
  have hins : ∀ d c, insertData db d table c = (db, false) := by
    intro d c
    simp [insertData, hf, hpk]
  refine ⟨hins data cols, ?_⟩
  intro src h2 h1
  by_cases hne : h2 = h1
  · simp [syncStep, hne]
  · by_cases hemp : (getData src table).1.isEmpty
    · simp [syncStep, hne, hemp]
    · simp [syncStep, hne, hemp, hins]

/-- Witness for C4: the pk-less destination `exDestNoPk` is untouched even
though the hashes differ and the source has a row. -/
theorem upsert_refused_without_pk_witness :
    insertData exDestNoPk [[some 1, some 2]] "t" ["id", "v"] = (exDestNoPk, false) ∧
    (syncStep exSrcIdV2 exDestNoPk "t" (some "(1,2)") none).1 = exDestNoPk :=
  ⟨(upsert_refused_without_pk exDestNoPk [[some 1, some 2]] "t" ["id", "v"]
      ⟨["id", "v"], none, []⟩ (by decide) rfl).1,
   (upsert_refused_without_pk exDestNoPk [[some 1, some 2]] "t" ["id", "v"]
      ⟨["id", "v"], none, []⟩ (by decide) rfl).2 exSrcIdV2 (some "(1,2)") none⟩

/-- C10: when the column list is exactly the primary-key column, the
generated `ON CONFLICT ... DO UPDATE SET` clause is empty — a SQL syntax
error — so the first row's statement raises, the batch is rolled back and
nothing is written: the writer cannot succeed on a PK-only column list even
though the primary-key precondition holds. -/
theorem pk_only_upsert_always_fails (db : DB) (data : List Row) (table : String)
    (t : Table) (p : String)
    (hf : findTable db table = some t) (hpk : t.pk = some p) (hd : data ≠ []) :
    insertData db data table [p] = (db, false) := by
  cases hi : t.cols.findIdx? (fun c => c == p) with
  | none => simp [insertData, hf, hpk, hi]
  | some pkIdx =>
    cases data with
    | nil => exact absurd rfl hd
    | cons d rest =>
      simp [insertData, hf, hpk, hi, applyRow_pk_only]

/-- Witness for C10: a one-column table with a primary key and a nonempty
batch; the upsert fails and the stored row survives unchanged. -/
theorem pk_only_upsert_always_fails_witness :
    insertData [("t", ⟨["id"], some "id", [[some 7]]⟩)] [[some 9]] "t" ["id"] =
      ([("t", ⟨["id"], some "id", [[some 7]]⟩)], false) :=
  pk_only_upsert_always_fails [("t", ⟨["id"], some "id", [[some 7]]⟩)] [[some 9]] "t"
    ⟨["id"], some "id", [[some 7]]⟩ "id" (by decide) rfl (by decide)

/-- C8: `_get_table_hash` is total — the `except` block turns a failed read
(missing table) into `None`, and an empty table's `md5(string_agg(...))` is
SQL NULL, also fetched as `None` — and the main loop compares hashes with
`!=`, so a table that is absent, empty or unreadable on both sides compares
equal: the step reports up to date and neither reads nor writes. -/
theorem absent_hashes_compare_equal (src dest : DB) (table : String)
    (hs : findTable src table = none ∨ ∃ t, findTable src table = some t ∧ t.rows = [])
    (hd : findTable dest table = none ∨ ∃ t, findTable dest table = some t ∧ t.rows = []) :
    getTableHash src table = none ∧ getTableHash dest table = none ∧
    (syncStep src dest table (getTableHash src table) (getTableHash dest table)).1 = dest ∧
    (syncStep src dest table (getTableHash src table) (getTableHash dest table)).2.report =
      Report.upToDate ∧
    (syncStep src dest table (getTableHash src table) (getTableHash dest table)).2.writer =
      none := by
  have h2 := getTableHash_none src table hs
  have h1 := getTableHash_none dest table hd
  rw [h2, h1]
  exact ⟨rfl, rfl, rfl, rfl, rfl⟩

/-- Witness for C8: the table is missing at the source and empty at the
destination; both hashes are `None` and the step is a no-op. -/
theorem absent_hashes_compare_equal_witness :
    getTableHash ([] : DB) "t" = none ∧ getTableHash exDestEmpty "t" = none ∧
    (syncStep ([] : DB) exDestEmpty "t" (getTableHash ([] : DB) "t")
        (getTableHash exDestEmpty "t")).1 = exDestEmpty ∧
    (syncStep ([] : DB) exDestEmpty "t" (getTableHash ([] : DB) "t")
        (getTableHash exDestEmpty "t")).2.report = Report.upToDate ∧
    (syncStep ([] : DB) exDestEmpty "t" (getTableHash ([] : DB) "t")
        (getTableHash exDestEmpty "t")).2.writer = none :=
  absent_hashes_compare_equal ([] : DB) exDestEmpty "t" (Or.inl (by decide))
    (Or.inr ⟨⟨["id", "v"], some "id", []⟩, by decide, rfl⟩)

/-- C2 counterexample: with `SYNC_TABLES` unset (a falsy configuration) the
script still attempts both database connections first — lines 98 and 111 run
before the check at line 117 — and only then exits with status 1, refuting
"terminates before any database connection is attempted". -/
theorem connections_attempted_before_config_check :
    truthy none = false ∧
    (script none [] []).1 = [Ev.connectAttempt 1, Ev.connectAttempt 2, Ev.exited 1] ∧
    Ev.connectAttempt 1 ∈ (script none [] []).1 := by
  refine ⟨rfl, rfl, ?_⟩
  decide

/-- C2 as amended: a missing or empty `SYNC_TABLES` makes the process exit
with status 1 and do no table work, but only after both connection attempts
have already been made. -/
theorem empty_config_exits_after_connecting (raw : Option String) (src dest : DB)
    (h : truthy raw = false) :
    (script raw src dest).1 = [Ev.connectAttempt 1, Ev.connectAttempt 2, Ev.exited 1] ∧
    (script raw src dest).2 = dest := by
  simp [script, h]

/-- Witness for the amended C2 at the concrete input `SYNC_TABLES` unset. -/
theorem empty_config_exits_after_connecting_witness :
    (script none exSrcIdV exDestExtra).1 =
      [Ev.connectAttempt 1, Ev.connectAttempt 2, Ev.exited 1] ∧
    (script none exSrcIdV exDestExtra).2 = exDestExtra :=
  empty_config_exits_after_connecting none exSrcIdV exDestExtra rfl

/-- C9 counterexample: on the missing/empty `SYNC_TABLES` path the process
exits (status 1) without either `conn.close()` running — `exit(1)` at
line 119 sits before the `try`/`finally` that closes the connections — so it
is false that both connections are closed on every exit path. -/
theorem exit_path_without_closing_connections :
    Ev.exited 1 ∈ (script none [] []).1 ∧
    Ev.closeConn 1 ∉ (script none [] []).1 ∧
    Ev.closeConn 2 ∉ (script none [] []).1 := by
  decide

/-- C9 as amended: when the configuration is truthy the run always reaches
the `finally` block (every per-table error is swallowed inside the helpers),
so both connections are closed before the normal exit; on the falsy-config
path the process exits with status 1 without closing either connection. -/
theorem connections_closed_only_on_main_path (raw : Option String) (src dest : DB) :
    (truthy raw = true →
      (script raw src dest).1 = [Ev.connectAttempt 1, Ev.connectAttempt 2,
        Ev.closeConn 1, Ev.closeConn 2, Ev.exited 0]) ∧
    (truthy raw = false →
      Ev.closeConn 1 ∉ (script raw src dest).1 ∧
      Ev.closeConn 2 ∉ (script raw src dest).1) := by
  constructor
  · intro h
    simp [script, h]
  · intro h
    simp [script, h]

/-- Witness for the amended C9 at the two concrete inputs `SYNC_TABLES="t"`
and `SYNC_TABLES` unset. -/
theorem connections_closed_only_on_main_path_witness :
    (script (some "t") exSrcIdV exDestEmpty).1 = [Ev.connectAttempt 1, Ev.connectAttempt 2,
      Ev.closeConn 1, Ev.closeConn 2, Ev.exited 0] ∧
    Ev.closeConn 1 ∉ (script none exSrcIdV exDestEmpty).1 :=
  ⟨(connections_closed_only_on_main_path (some "t") exSrcIdV exDestEmpty).1 rfl,
   ((connections_closed_only_on_main_path none exSrcIdV exDestEmpty).2 rfl).1⟩

/-- C1 counterexample: source columns a, b, c and destination columns
a, b, d with differing hashes. The claim says only the intersection a, b is
read and written; the code reads `SELECT *`, so the read column list is
a, b, c — the source-only column c included — and the write is attempted
with all three columns (and fails, leaving the destination as it was). -/
theorem sync_reads_source_only_columns :
    getTableHash exSrcABC "t" ≠ getTableHash exDestABD "t" ∧
    (runSync exSrcABC exDestABD ["t"]).2.map Step.readCols = [["a", "b", "c"]] ∧
    (runSync exSrcABC exDestABD ["t"]).2.map Step.writer = [some false] ∧
    (runSync exSrcABC exDestABD ["t"]).1 = exDestABD := by
  decide

/-- C1 as amended: for a table with differing hashes and a nonempty source,
the sync reads all of the source's columns (`SELECT *`) — no intersection is
computed — and hands them all to the writer; if the source has a column the
destination lacks, the write fails and the destination is left unchanged. -/
theorem sync_reads_all_source_columns (src dest : DB) (table : String)
    (h2 h1 : Option String) (t u : Table) (c : String)
    (hsrc : findTable src table = some t) (hne : h2 ≠ h1) (hrows : t.rows ≠ [])
    (hdest : findTable dest table = some u) (hc : c ∈ t.cols) (hcn : c ∉ u.cols) :
    (syncStep src dest table h2 h1).2.readCols = t.cols ∧
    (syncStep src dest table h2 h1).2.writer = some false ∧
    (syncStep src dest table h2 h1).1 = dest := by
  have hget : getData src table = (t.rows, t.cols) := by simp [getData, hsrc]
  have hemp : t.rows.isEmpty = false := by
    cases hr : t.rows with
    | nil => exact absurd hr hrows
    | cons a l => rfl
  have hins : insertData dest t.rows table t.cols = (dest, false) :=
    insertData_col_missing dest t.rows table t.cols u c hdest hc hcn hrows
  refine ⟨?_, ?_, ?_⟩ <;> simp [syncStep, hne, hget, hemp, hins]

/-- Witness for the amended C1 at the a,b,c / a,b,d fixture. -/
theorem sync_reads_all_source_columns_witness :
    (syncStep exSrcABC exDestABD "t" (getTableHash exSrcABC "t")
        (getTableHash exDestABD "t")).2.readCols = ["a", "b", "c"] ∧
    (syncStep exSrcABC exDestABD "t" (getTableHash exSrcABC "t")
        (getTableHash exDestABD "t")).2.writer = some false ∧
    (syncStep exSrcABC exDestABD "t" (getTableHash exSrcABC "t")
        (getTableHash exDestABD "t")).1 = exDestABD :=
  sync_reads_all_source_columns exSrcABC exDestABD "t"
    (getTableHash exSrcABC "t") (getTableHash exDestABD "t")
    ⟨["a", "b", "c"], some "a", [[some 1, some 2, some 3]]⟩
    ⟨["a", "b", "d"], some "a", [[some 1, some 5, some 7]]⟩ "c"
    (by decide) (by decide) (by decide) (by decide) (by decide) (by decide)

/-- C5 counterexample: the destination table has no primary key, so the
writer fails (`writer = some false`) and the destination is unchanged — yet
the orchestrator's reported outcome is the success line with the row count,
because line 147 prints `SUCESSO` unconditionally after `_insert_data`
returns (the writer swallows its own exception at lines 61–63). -/
theorem success_reported_despite_writer_failure :
    (runSync exSrcIdV2 exDestNoPk ["t"]).2.map Step.writer = [some false] ∧
    (runSync exSrcIdV2 exDestNoPk ["t"]).2.map Step.report = [Report.successMsg 1] ∧
    (runSync exSrcIdV2 exDestNoPk ["t"]).1 = exDestNoPk := by
  decide

/-- C5 as amended: whenever the hashes differ and the source read returns
rows, the orchestrator reports the success line with the row count
regardless of the writer's outcome; the writer's failure is only visible in
its own error log, and on failure the destination keeps its previous
committed state. -/
theorem success_line_printed_regardless (src dest : DB) (table : String)
    (h2 h1 : Option String) (hne : h2 ≠ h1) (hdata : (getData src table).1 ≠ []) :
    (syncStep src dest table h2 h1).2.report =
      Report.successMsg (getData src table).1.length ∧
    (syncStep src dest table h2 h1).2.writer =
      some (insertData dest (getData src table).1 table (getData src table).2).2 ∧
    ((insertData dest (getData src table).1 table (getData src table).2).2 = false →
      (syncStep src dest table h2 h1).1 = dest) := by
  have hemp : (getData src table).1.isEmpty = false := by
    cases hg : (getData src table).1 with
    | nil => exact absurd hg hdata
    | cons a l => rfl
  refine ⟨?_, ?_, ?_⟩
  · simp [syncStep, hne, hemp]
  · simp [syncStep, hne, hemp]
  · intro hfail
    have hroll := insertData_fail_eq dest (getData src table).1 table
      (getData src table).2 hfail
    simp [syncStep, hne, hemp, hroll]

/-- Witness for the amended C5 at the no-primary-key fixture. -/
theorem success_line_printed_regardless_witness :
    (syncStep exSrcIdV2 exDestNoPk "t" (getTableHash exSrcIdV2 "t")
        (getTableHash exDestNoPk "t")).2.report = Report.successMsg 1 ∧
    (syncStep exSrcIdV2 exDestNoPk "t" (getTableHash exSrcIdV2 "t")
        (getTableHash exDestNoPk "t")).2.writer = some false ∧
    (syncStep exSrcIdV2 exDestNoPk "t" (getTableHash exSrcIdV2 "t")
        (getTableHash exDestNoPk "t")).1 = exDestNoPk := by
  have h := success_line_printed_regardless exSrcIdV2 exDestNoPk "t"
    (getTableHash exSrcIdV2 "t") (getTableHash exDestNoPk "t") (by decide) (by decide)
  exact ⟨h.1, h.2.1, h.2.2 (by decide)⟩

/-- C6 counterexample: two physical orders of the same multiset of rows,
tied on the first column. `ORDER BY 1` is not a total order on these rows,
so the hash input — and hence the digest — differs between the two orders:
the hash is not order-independent. -/
theorem hash_depends_on_storage_order :
    exRowsTie1.Perm exRowsTie2 ∧
    getTableHash [("t", ⟨["id", "v"], some "id", exRowsTie1⟩)] "t" ≠
      getTableHash [("t", ⟨["id", "v"], some "id", exRowsTie2⟩)] "t" := by
  constructor
  · decide
  · decide

/-- Two pairwise properties of one list combine pointwise. -/
theorem pairwise_and {α : Type} {R S : α → α → Prop} {l : List α}
    (hR : l.Pairwise R) (hS : l.Pairwise S) :
    l.Pairwise (fun a b => R a b ∧ S a b) := by
  induction l with
  | nil => exact List.Pairwise.nil
  | cons a l ih =>
    rcases List.pairwise_cons.mp hR with ⟨hRa, hRl⟩
    rcases List.pairwise_cons.mp hS with ⟨hSa, hSl⟩
    exact List.pairwise_cons.mpr ⟨fun b hb => ⟨hRa b hb, hSa b hb⟩, ih hRl hSl⟩

/-- C6 as amended: the table hash is the same for any two physical storage
orders of the same multiset of rows provided no two rows share a first-column
value — `ORDER BY 1` is then a total order and the sorted row sequence is
uniquely determined. (The counterexample shows this fails when first-column
values repeat.) -/
theorem hash_order_independent_with_distinct_keys (l1 l2 : List Row)
    (hperm : l1.Perm l2)
    (hkeys : l1.Pairwise (fun a b => rowKey a ≠ rowKey b)) :
    hashRows l1 = hashRows l2 := by
  have hsym : ∀ {a b : Row}, rowKey a ≠ rowKey b → rowKey b ≠ rowKey a :=
    fun h => Ne.symm h
  have p1 : (sortRows l1).Perm l1 := List.perm_insertionSort rowLeP l1
  have p2 : (sortRows l2).Perm l2 := List.perm_insertionSort rowLeP l2
  have p12 : (sortRows l1).Perm (sortRows l2) := (p1.trans hperm).trans p2.symm
  have hk1 : (sortRows l1).Pairwise (fun a b => rowKey a ≠ rowKey b) :=
    (p1.pairwise_iff hsym).mpr hkeys
  have hk2 : (sortRows l2).Pairwise (fun a b => rowKey a ≠ rowKey b) :=
    (p12.pairwise_iff hsym).mp hk1
  have hs1 : List.Sorted rowLeP (sortRows l1) := List.sorted_insertionSort rowLeP l1
  have hs2 : List.Sorted rowLeP (sortRows l2) := List.sorted_insertionSort rowLeP l2
  have hn1 : List.Sorted rowLeNe (sortRows l1) :=
    (pairwise_and hs1 hk1).imp (fun h => h)
  have hn2 : List.Sorted rowLeNe (sortRows l2) :=
    (pairwise_and hs2 hk2).imp (fun h => h)
  have hsort : sortRows l1 = sortRows l2 := List.eq_of_perm_of_sorted p12 hn1 hn2
  unfold hashRows
  rw [hsort]

/-- Witness for the amended C6: distinct first-column values, two orders,
equal digests. -/
theorem hash_order_independent_with_distinct_keys_witness :
    hashRows [[some 1, some 10], [some 2, some 20]] =
      hashRows [[some 2, some 20], [some 1, some 10]] :=
  hash_order_independent_with_distinct_keys
    [[some 1, some 10], [some 2, some 20]] [[some 2, some 20], [some 1, some 10]]
    (by decide) (by decide)

/-- A key never in `seen` and emitted by `dedupKeysAux` was not in `seen`. -/
theorem mem_dedupKeysAux : ∀ (l seen : List String) (a : String),
    a ∈ dedupKeysAux seen l → a ∉ seen := by
  intro l
  induction l with
  | nil =>
    intro seen a h
    simp [dedupKeysAux] at h
  | cons t rest ih =>
    intro seen a h
    rw [dedupKeysAux] at h
    by_cases ht : t ∈ seen
    · rw [if_pos ht] at h
      exact ih seen a h
    · rw [if_neg ht] at h
      rcases List.mem_cons.mp h with rfl | h2
      · exact ht
      · exact fun ha => ih (t :: seen) a h2 (List.mem_cons_of_mem t ha)

/-- Function `dedupKeysAux` emits each key at most once. -/
theorem dedupKeysAux_nodup : ∀ (l seen : List String), (dedupKeysAux seen l).Nodup := by
  intro l
  induction l with
  | nil => intro seen; simp [dedupKeysAux]
  | cons t rest ih =>
    intro seen
    rw [dedupKeysAux]
    by_cases ht : t ∈ seen
    · rw [if_pos ht]
      exact ih seen
    · rw [if_neg ht]
      refine List.nodup_cons.mpr ⟨?_, ih (t :: seen)⟩
      intro hmem
      exact mem_dedupKeysAux rest (t :: seen) t hmem (List.mem_cons_self t seen)

/-- The Python dict holds distinct keys. -/
theorem dedupKeys_nodup (l : List String) : (dedupKeys l).Nodup :=
  dedupKeysAux_nodup l []

/-- On an association list with distinct keys, `dict.get` of a stored key
returns the stored value. -/
theorem lookupHash_mem : ∀ (hs : List (String × Option String)),
    (hs.map Prod.fst).Nodup → ∀ p ∈ hs, lookupHash hs p.1 = p.2 := by
  intro hs
  induction hs with
  | nil =>
    intro _ p hp
    cases hp
  | cons q rest ih =>
    intro hnd p hp
    rw [List.map_cons, List.nodup_cons] at hnd
    rcases List.mem_cons.mp hp with rfl | hp2
    · simp [lookupHash]
    · have hq : (q.1 == p.1) = false := by
        rw [beq_eq_false_iff_ne]
        intro he
        exact hnd.1 (he ▸ List.mem_map_of_mem Prod.fst hp2)
      rw [lookupHash, hq]
      simp only [Bool.false_eq_true, if_false]
      exact ih hnd.2 p hp2

/-- The keys of `_get_db_hashes` are the deduplicated configured names. -/
theorem getDbHashes_keys (db : DB) (tables : List String) :
    (getDbHashes db tables).map Prod.fst = dedupKeys (tables.filter (fun t => t ≠ "")) := by
  simp [getDbHashes, List.map_map, Function.comp_def]

/-- If every table in the source hash dict looks up to an equal destination
hash, the whole loop reports up to date everywhere and never touches the
destination. -/
theorem runSyncFrom_all_equal (src : DB) (hs1 : List (String × Option String)) :
    ∀ (l : List (String × Option String)) (dest : DB),
    (∀ p ∈ l, lookupHash hs1 p.1 = p.2) →
    runSyncFrom src hs1 dest l =
      (dest, l.map (fun p => ⟨p.1, p.2, p.2, [], 0, none, Report.upToDate⟩)) := by
  intro l
  induction l with
  | nil =>
    intro dest _
    rfl
  | cons p rest ih =>
    intro dest h
    have hp := h p (List.mem_cons_self p rest)
    have hstep : syncStep src dest p.1 p.2 (lookupHash hs1 p.1) =
        (dest, ⟨p.1, p.2, p.2, [], 0, none, Report.upToDate⟩) := by
      rw [hp]
      simp [syncStep]
    have hrest := ih dest (fun q hq => h q (List.mem_cons_of_mem p hq))
    simp [runSyncFrom, hstep, hrest]

/-- C7 counterexample: the destination holds one extra row the source lacks.
Upsert never deletes, so after the first run the hashes still differ, and the
second run — with no intervening source change — performs (and here even
commits) another write instead of the claimed zero writes. -/
theorem second_run_writes_again :
    (runSync exSrcIdV ((runSync exSrcIdV exDestExtra ["t"]).1) ["t"]).2.map Step.writer =
      [some true] ∧
    (runSync exSrcIdV ((runSync exSrcIdV exDestExtra ["t"]).1) ["t"]).2.map
      (fun s => decide (s.srcHash = s.destHash)) = [false] := by
  decide

/-- C7 as amended: the second run performs zero writes exactly when the first
run left every configured table hashing equal on the two sides (for example
when the destination ends up with precisely the source's content); the
counterexample shows a destination-only row defeats this for every run. -/
theorem second_run_idle_when_hashes_converge (src dest : DB) (tables : List String)
    (h : getDbHashes src tables = getDbHashes ((runSync src dest tables).1) tables) :
    (runSync src ((runSync src dest tables).1) tables).1 = (runSync src dest tables).1 ∧
    ∀ s ∈ (runSync src ((runSync src dest tables).1) tables).2,
      s.report = Report.upToDate ∧ s.writer = none := by
  have hnd : ((getDbHashes ((runSync src dest tables).1) tables).map Prod.fst).Nodup := by
    rw [getDbHashes_keys]
    exact dedupKeys_nodup _
  have hall : ∀ p ∈ getDbHashes src tables,
      lookupHash (getDbHashes ((runSync src dest tables).1) tables) p.1 = p.2 := by
    intro p hp
    exact lookupHash_mem _ hnd p (h ▸ hp)
  have hr2 : runSync src ((runSync src dest tables).1) tables =
      ((runSync src dest tables).1,
        (getDbHashes src tables).map
          (fun p => ⟨p.1, p.2, p.2, [], 0, none, Report.upToDate⟩)) := by
    show runSyncFrom src (getDbHashes ((runSync src dest tables).1) tables)
      ((runSync src dest tables).1) (getDbHashes src tables) = _
    exact runSyncFrom_all_equal src _ _ _ hall
  refine ⟨by rw [hr2], ?_⟩
  intro s hs
  rw [hr2] at hs
  simp only [List.mem_map] at hs
  obtain ⟨p, hp, rfl⟩ := hs
  exact ⟨rfl, rfl⟩

/-- Witness for the amended C7: source row (1,10), destination initially
empty; the first run copies the row, the hashes converge, and the second run
leaves the destination untouched. -/
theorem second_run_idle_when_hashes_converge_witness :
    (runSync exSrcIdV ((runSync exSrcIdV exDestEmpty ["t"]).1) ["t"]).1 =
      (runSync exSrcIdV exDestEmpty ["t"]).1 :=
  (second_run_idle_when_hashes_converge exSrcIdV exDestEmpty ["t"] (by decide)).1
